import Mathlib

/-!
Verification of the sXLM liquid-staking backend against its specification.

Modelling conventions, applied uniformly:

* Monetary amounts held in TypeScript `bigint` variables are modelled as `ℤ`
  (stroops, scale 10⁷).
* TypeScript `number` arithmetic (IEEE doubles) is modelled by exact rational
  arithmetic over `ℚ`.  All concrete inputs used in counterexamples and
  witnesses are small enough that the double computations of the source are
  exact, so the models and the source agree on them.
* Functions that `throw` are modelled as `Option`-returning functions
  (`none` = exception).  The JavaScript `Infinity` sentinel used for health
  factors is modelled as `none : Option ℚ`.
* Database rows (Prisma `withdrawal`, `collateralPosition` tables) are
  modelled as lists of records; a Prisma `findMany`/`update` pass over the
  table is modelled as `List.filter` / `List.map`.
-/

/-- Model of `computeExchangeRate` from
`src/backend/src/staking-engine/exchangeRateManager.ts`:
returns `1.0` when `totalSxlmSupply === 0n`, otherwise
`Number(totalXlmStaked) / Number(totalSxlmSupply)` — an unscaled real
quotient, not a 10⁷-scaled integer. -/
def computeExchangeRate (totalXlmStaked totalSxlmSupply : ℤ) : ℚ :=
  if totalSxlmSupply = 0 then 1
  else (totalXlmStaked : ℚ) / (totalSxlmSupply : ℚ)

/-- Second definition for the refinement comparison in claim C1, following the
spec's words (Invariant S1): `get_exchange_rate() = total_xlm_staked /
total_sxlm_supply` exactly, using 10⁷-scaled integer division, defined as
`1·10⁷` when the supply is zero. -/
def specExchangeRateScaled (totalXlmStaked totalSxlmSupply : ℤ) : ℤ :=
  if totalSxlmSupply = 0 then 10000000
  else totalXlmStaked * 10000000 / totalSxlmSupply

/-- Model of `xlmToSxlm` from `exchangeRateManager.ts`:
throws on `exchangeRate <= 0`, else `BigInt(Math.floor(Number(x) / rate))`. -/
def xlmToSxlm (xlmStroops : ℤ) (exchangeRate : ℚ) : Option ℤ :=
  if exchangeRate ≤ 0 then none
  else some ⌊(xlmStroops : ℚ) / exchangeRate⌋

/-- Model of `sxlmToXlm` from `exchangeRateManager.ts`:
throws on `exchangeRate <= 0`, else `BigInt(Math.floor(Number(s) * rate))`. -/
def sxlmToXlm (sxlmStroops : ℤ) (exchangeRate : ℚ) : Option ℤ :=
  if exchangeRate ≤ 0 then none
  else some ⌊(sxlmStroops : ℚ) * exchangeRate⌋

/-- The XLM → sXLM → XLM round trip of claim C3, composing the two
conversion helpers at a fixed exchange rate. -/
def roundTrip (xlmStroops : ℤ) (exchangeRate : ℚ) : Option ℤ :=
  (xlmToSxlm xlmStroops exchangeRate).bind (fun s => sxlmToXlm s exchangeRate)

/-- Status column of the Prisma `withdrawal` table
(`"pending" | "processing" | "completed" | "failed"`). -/
inductive WithdrawalStatus where
  | pending
  | processing
  | completed
  | failed
deriving DecidableEq

/-- A row of the Prisma `withdrawal` table, with the fields read by the
staking engine and the withdrawal-queue processor.  `unlockTime` and
`createdAt` are timestamps in milliseconds. -/
structure Withdrawal where
  id : ℕ
  wallet : String
  amount : ℤ
  status : WithdrawalStatus
  unlockTime : ℤ
  createdAt : ℤ
deriving DecidableEq

/-- Model of `StakingEngine.recalculateWithdrawalQueueAfterSlash` from
`src/backend/src/staking-engine/index.ts` (src/unnamed/part_015, lines
125–164).  The on-chain reads `getTotalStaked()` / `getTotalSupply()` are
passed in as arguments (`totalStaked` is the value *after* the slash, as the
code's comment states).  The guards (`totalSupply === 0n`, `oldER <= 0`) and
the per-row update `BigInt(Math.floor(Number(w.amount) * reductionFactor))`
with `reductionFactor = newER / oldER` are mirrored literally; rows whose
status is not `"pending"` are not part of the `findMany` result and are left
unchanged. -/
def recalculateWithdrawalQueueAfterSlash (totalStaked totalSupply slashAmount : ℤ)
    (q : List Withdrawal) : List Withdrawal :=
  if totalSupply = 0 then q
  else if ((totalStaked + slashAmount : ℤ) : ℚ) / (totalSupply : ℚ) ≤ 0 then q
  else
    q.map (fun w =>
      if w.status = .pending then
        { w with amount :=
            ⌊(w.amount : ℚ) *
              (((totalStaked : ℚ) / (totalSupply : ℚ)) /
                (((totalStaked + slashAmount : ℤ) : ℚ) / (totalSupply : ℚ)))⌋ }
      else w)

/-- Model of the record selection of `processQueue` in
`src/backend/src/staking-engine/withdrawalQueueProcessor.ts` (lines 45–63):
`findMany` over rows with `status = "pending"` and `unlockTime ≤ now`,
ordered by `createdAt` ascending, batched with `take: 50`.  Only the
selected rows are ever passed to `callClaimWithdrawal`. -/
def readyWithdrawals (now : ℤ) (q : List Withdrawal) : List Withdrawal :=
  ((q.filter (fun w => decide (w.status = .pending ∧ w.unlockTime ≤ now))).mergeSort
      (fun a b => decide (a.createdAt ≤ b.createdAt))).take 50

/-- `config.protocol.minStakeAmount` from `src/backend/src/config/index.ts`:
1 XLM in stroops. -/
def minStakeAmount : ℤ := 10000000

/-- `config.protocol.maxStakeAmount` from `src/backend/src/config/index.ts`:
10 million XLM in stroops. -/
def maxStakeAmount : ℤ := 100000000000000

/-- Outcome of the bound validation in `POST /staking/stake`
(`src/backend/src/api-gateway/routes/stake.ts`, lines 35–45). -/
inductive StakeBoundCheck where
  | belowMin
  | aboveMax
  | ok
deriving DecidableEq

/-- Model of the bound validation of `POST /staking/stake`: a 400 response
with the minimum-stake message when `xlmStroops < minStakeAmount`, a 400
response with the maximum-stake message when `xlmStroops > maxStakeAmount`,
otherwise the route proceeds to build the transaction. -/
def stakeBoundCheck (xlmStroops : ℤ) : StakeBoundCheck :=
  if xlmStroops < minStakeAmount then .belowMin
  else if xlmStroops > maxStakeAmount then .aboveMax
  else .ok

/-- Outcome of a gateway pre-flight check
(`src/backend/src/api-gateway/routes/unstake.ts`). -/
inductive PreflightOutcome where
  | rejectNonPositive
  | rejectInsufficientSxlm
  | rejectInsufficientPoolLiquidity
  | buildUnsignedTx
deriving DecidableEq

/-- Model of the pre-flight stage of `POST /staking/unstake`
(`unstake.ts`, lines 169–231): reject non-positive amounts, then fetch the
user's on-chain sXLM balance and reject with an insufficient-balance error
when `userBalance < sxlmStroops`; only otherwise is the unsigned
`request_withdrawal` transaction built and returned. -/
def unstakePreflight (sxlmStroops userBalance : ℤ) : PreflightOutcome :=
  if sxlmStroops ≤ 0 then .rejectNonPositive
  else if userBalance < sxlmStroops then .rejectInsufficientSxlm
  else .buildUnsignedTx

/-- Model of the pre-flight stage of `POST /lending/borrow`
(`unstake.ts`, lines 493–519): fetch `get_pool_balance` and reject with an
insufficient-pool-liquidity error when `poolBalance < stroops`; only
otherwise is the unsigned `borrow` transaction built and returned. -/
def borrowPreflight (xlmStroops poolBalance : ℤ) : PreflightOutcome :=
  if poolBalance < xlmStroops then .rejectInsufficientPoolLiquidity
  else .buildUnsignedTx

/-- Model of the max-borrow computation in `GET /lending/position/:wallet`
(`unstake.ts`, lines 608–612):
`(Number(collateral) * er * cfBps) / (10000 * 1e7)` — a JavaScript `number`
division with no flooring. -/
def maxBorrowStroops (collateral er cfBps : ℤ) : ℚ :=
  ((collateral : ℚ) * (er : ℚ) * (cfBps : ℚ)) / ((10000 : ℚ) * 10000000)

/-- Second definition for the refinement comparison in claim C5, following the
spec's words: `max_borrow_stroops = collateral · exchange_rate ·
collateral_factor_bps / (10000 · 10⁷)` in 10⁷-scaled integer math with
floor. -/
def specMaxBorrowStroops (collateral er cfBps : ℤ) : ℤ :=
  collateral * er * cfBps / (10000 * 10000000)

/-- The five protocol contracts whose ids the keeper reads from
`config.contracts` (`src/backend/src/keeper/index.ts`, lines 193–199). -/
inductive ProtocolContract where
  | sxlmToken
  | staking
  | lending
  | lpPool
  | governance
deriving DecidableEq

/-- An admin-signed contract invocation issued by the keeper through
`executeAdminCall(contractId, method, [])`. -/
structure AdminCall where
  target : ProtocolContract
  method : String
deriving DecidableEq

/-- The contract list traversed by `KeeperBot.bumpAllContractTTLs`
(`keeper/index.ts`, lines 193–199): sXLM token, staking, lending, LP pool,
governance. -/
def keeperTtlContracts : List ProtocolContract :=
  [.sxlmToken, .staking, .lending, .lpPool, .governance]

/-- Model of `KeeperBot.bumpAllContractTTLs`: one `bump_instance` admin call
per contract in `keeperTtlContracts`, in order. -/
def bumpAllContractTTLs : List AdminCall :=
  keeperTtlContracts.map (fun c => ⟨c, "bump_instance"⟩)

/-- Model of `KeeperBot.recalibrateStakingRate` (`keeper/index.ts`, lines
216–227): a single `recalibrate_rate` admin call on the staking contract. -/
def recalibrateStakingRate : AdminCall :=
  ⟨.staking, "recalibrate_rate"⟩

/-- Model of the harvested-amount computation in
`KeeperBot.harvestLendingInterest` (`keeper/index.ts`, lines 176–181):
`pendingBefore - pendingAfter` when the re-queried accrued interest
decreased, `pendingBefore` as fallback otherwise. -/
def harvestedAmount (pendingBefore pendingAfter : ℤ) : ℤ :=
  if pendingAfter < pendingBefore then pendingBefore - pendingAfter else pendingBefore

/-- Model of `KeeperBot.runHarvestCycle` (`keeper/index.ts`, lines 100–141),
as a function of the two `total_accrued_interest` query results taken before
and after `harvest_interest`.  The returned value is the amount passed to
`callAddRewards` on the staking contract; `none` means the cycle returns
without calling `add_rewards` (no pending interest, or harvest yielded
nothing). -/
def runHarvestCycle (pendingBefore pendingAfter : ℤ) : Option ℤ :=
  if pendingBefore ≤ 0 then none
  else if harvestedAmount pendingBefore pendingAfter ≤ 0 then none
  else some (harvestedAmount pendingBefore pendingAfter)

/-- Per-loop detail row of `LeverageEngine.simulate`
(`src/backend/src/leverage-engine/index.ts`). -/
structure LeverageLoopDetail where
  loop : ℕ
  deposited : ℚ
  borrowed : ℚ
  totalStaked : ℚ
  totalBorrowed : ℚ
deriving DecidableEq

/-- Input of `LeverageEngine.simulate`. -/
structure LeverageSimulationInput where
  principal : ℚ
  loops : ℕ
  collateralFactor : ℚ
  stakingAPR : ℚ
  borrowAPR : ℚ
deriving DecidableEq

/-- Result of `LeverageEngine.simulate`. -/
structure LeverageSimulationResult where
  maxLeverage : ℚ
  effectiveLeverage : ℚ
  totalStaked : ℚ
  totalBorrowed : ℚ
  netYieldPercent : ℚ
  grossYield : ℚ
  borrowCost : ℚ
  netYield : ℚ
  loopDetails : List LeverageLoopDetail
deriving DecidableEq

/-- The `for (let i = 0; i < loops; i++)` loop of `LeverageEngine.simulate`
(`leverage-engine/index.ts`, lines 62–76), with accumulators `ts`
(totalStaked), `tb` (totalBorrowed) and `cur` (currentDeposit); returns the
final accumulators and the pushed loop details in order. -/
def leverageSteps (c : ℚ) (i : ℕ) (ts tb cur : ℚ) :
    ℕ → ℚ × ℚ × List LeverageLoopDetail
  | 0 => (ts, tb, [])
  | Nat.succ n =>
    let ts2 := ts + cur
    let b := cur * c
    let tb2 := tb + b
    let rest := leverageSteps c (i + 1) ts2 tb2 b n
    (rest.1, rest.2.1, ⟨i + 1, cur, b, ts2, tb2⟩ :: rest.2.2)

/-- Model of `LeverageEngine.simulate` (`leverage-engine/index.ts`, lines
52–100): `maxLeverage = 1 / (1 - c)`, the compounding loop, then
`effectiveLeverage = totalStaked / principal`,
`grossYield = totalStaked * stakingAPR`,
`borrowCost = totalBorrowed * borrowAPR`,
`netYield = grossYield - borrowCost`,
`netYieldPercent = netYield / principal * 100`. -/
def LeverageEngine.simulate (input : LeverageSimulationInput) : LeverageSimulationResult :=
  let maxLeverage := 1 / (1 - input.collateralFactor)
  let r := leverageSteps input.collateralFactor 0 0 0 input.principal input.loops
  let totalStaked := r.1
  let totalBorrowed := r.2.1
  let effectiveLeverage := totalStaked / input.principal
  let grossYield := totalStaked * input.stakingAPR
  let borrowCost := totalBorrowed * input.borrowAPR
  let netYield := grossYield - borrowCost
  let netYieldPercent := netYield / input.principal * 100
  ⟨maxLeverage, effectiveLeverage, totalStaked, totalBorrowed,
    netYieldPercent, grossYield, borrowCost, netYield, r.2.2⟩

/-- The health-factor expression of `RestakingEngine.simulate`
(`src/backend/src/restaking-engine/index.ts`):
`totalBorrowed > 0 ? totalStaked * c / totalBorrowed : Infinity`, with the
`Infinity` sentinel modelled as `none`. -/
def restakingHF (c totalStaked totalBorrowed : ℚ) : Option ℚ :=
  if 0 < totalBorrowed then some (totalStaked * c / totalBorrowed) else none

/-- A step row pushed by `RestakingEngine.simulate`. -/
structure RestakingLoopStep where
  step : ℕ
  action : String
  amount : ℚ
  totalStaked : ℚ
  totalBorrowed : ℚ
  healthFactor : Option ℚ
deriving DecidableEq

/-- Result of `RestakingEngine.simulate`. -/
structure RestakingSimulationResult where
  initialDeposit : ℚ
  loops : ℕ
  totalStaked : ℚ
  totalBorrowed : ℚ
  effectiveLeverage : ℚ
  estimatedNetAPR : ℚ
  healthFactor : Option ℚ
  steps : List RestakingLoopStep
deriving DecidableEq

/-- A row of the Prisma `collateralPosition` table, the only table the
`RestakingEngine` class can reach through its `prisma` field. -/
structure CollateralPositionRow where
  wallet : String
  sxlmDeposited : ℤ
  xlmBorrowed : ℤ
  healthFactor : ℚ
deriving DecidableEq

/-- The mutable state reachable through a `PrismaClient` handle, as far as
the restaking engine is concerned. -/
structure DBState where
  collateralPositions : List CollateralPositionRow

/-- The `RestakingEngine` class (`restaking-engine/index.ts`): its only
instance state is the injected `PrismaClient`. -/
structure RestakingEngine where
  prisma : DBState

/-- The `for (let i = 0; i < loops; i++)` loop of `RestakingEngine.simulate`
(`restaking-engine/index.ts`, lines 72–115): three step rows (stake,
deposit_collateral, borrow) per iteration.  In the borrow row the source
divides by `totalBorrowed` unconditionally; `ℚ` division by zero yields `0`
where the doubles would yield `Infinity`/`NaN`, which can only occur in the
degenerate case `collateralFactor = 0`. -/
def restakingSteps (c : ℚ) (i : ℕ) (ts tb cur : ℚ) :
    ℕ → ℚ × ℚ × List RestakingLoopStep
  | 0 => (ts, tb, [])
  | Nat.succ n =>
    let ts2 := ts + cur
    let s1 : RestakingLoopStep := ⟨i * 3 + 1, "stake", cur, ts2, tb, restakingHF c ts2 tb⟩
    let s2 : RestakingLoopStep :=
      ⟨i * 3 + 2, "deposit_collateral", cur, ts2, tb, restakingHF c ts2 tb⟩
    let b := cur * c
    let tb2 := tb + b
    let s3 : RestakingLoopStep := ⟨i * 3 + 3, "borrow", b, ts2, tb2, some (ts2 * c / tb2)⟩
    let rest := restakingSteps c (i + 1) ts2 tb2 b n
    (rest.1, rest.2.1, s1 :: s2 :: s3 :: rest.2.2)

/-- Model of `RestakingEngine.simulate` (`restaking-engine/index.ts`, lines
60–136).  The method reads none of the instance state: the `engine`
argument (the `this` of the TypeScript method) is provably irrelevant. -/
def RestakingEngine.simulate (engine : RestakingEngine) (principal : ℚ) (loops : ℕ)
    (collateralFactor stakingAPR borrowAPR : ℚ) : RestakingSimulationResult :=
  let r := restakingSteps collateralFactor 0 0 0 principal loops
  let totalStaked := r.1
  let totalBorrowed := r.2.1
  let effectiveLeverage := totalStaked / principal
  let grossYield := totalStaked * stakingAPR
  let borrowCost := totalBorrowed * borrowAPR
  let netAPR := (grossYield - borrowCost) / principal * 100
  ⟨principal, loops, totalStaked, totalBorrowed, effectiveLeverage, netAPR,
    restakingHF collateralFactor totalStaked totalBorrowed, r.2.2⟩

/-! ### Helper lemmas -/

theorem leverageSteps_fst (c : ℚ) :
    ∀ (n : ℕ) (i : ℕ) (ts tb cur : ℚ),
      (leverageSteps c i ts tb cur n).1 = ts + cur * ∑ j ∈ Finset.range n, c ^ j := by
  intro n
  induction n with
  | zero => intro i ts tb cur; simp [leverageSteps]
  | succ n ih =>
    intro i ts tb cur
    rw [leverageSteps]
    simp only
    rw [ih, geom_sum_succ]
    ring

theorem leverageSteps_snd (c : ℚ) :
    ∀ (n : ℕ) (i : ℕ) (ts tb cur : ℚ),
      (leverageSteps c i ts tb cur n).2.1 = tb + cur * c * ∑ j ∈ Finset.range n, c ^ j := by
  intro n
  induction n with
  | zero => intro i ts tb cur; simp [leverageSteps]
  | succ n ih =>
    intro i ts tb cur
    rw [leverageSteps]
    simp only
    rw [ih, geom_sum_succ]
    ring

theorem geomSum_lt_inv_one_sub (c : ℚ) (n : ℕ) (hc0 : 0 < c) (hc1 : c < 1) :
    ∑ j ∈ Finset.range n, c ^ j < 1 / (1 - c) := by
  have hne : c ≠ 1 := ne_of_lt hc1
  rw [geom_sum_eq hne]
  have h1 : (0 : ℚ) < 1 - c := by linarith
  have h2 : c ^ n > 0 := pow_pos hc0 n
  have key : (1 - c ^ n) / (1 - c) = (c ^ n - 1) / (c - 1) := by
    rw [show (1 - c ^ n) = -(c ^ n - 1) by ring, show (1 - c) = -(c - 1) by ring,
      neg_div_neg_eq]
  rw [← key, div_lt_div_iff₀ h1 h1]
  nlinarith

theorem geomSum_strictMono (c : ℚ) (hc0 : 0 < c) :
    StrictMono (fun n => ∑ j ∈ Finset.range n, c ^ j) := by
  apply strictMono_nat_of_lt_succ
  intro n
  rw [Finset.sum_range_succ]
  have := pow_pos hc0 n
  linarith

/-! ### Claim C1 -/

/-- C1, counterexample.  The claim states that `computeExchangeRate` returns
the 1:1 rate `1·10⁷` when `total_sxlm_supply = 0` and otherwise a 10⁷-scaled
integer division.  At staked = 5, supply = 0 the code returns the plain
float `1.0`, not `10000000`: the function works in unscaled float units, the
spec-words definition in 10⁷-scaled integers. -/
theorem computeExchangeRate_zero_supply_counterexample :
    computeExchangeRate 5 0 = 1 ∧ specExchangeRateScaled 5 0 = 10000000 ∧
      (1 : ℚ) ≠ (10000000 : ℚ) := by
  refine ⟨?_, ?_, by norm_num⟩
  · rw [computeExchangeRate, if_pos rfl]
  · rw [specExchangeRateScaled, if_pos rfl]

/-- C1, amended.  `computeExchangeRate` returns the exact *unscaled* quotient
`total_xlm_staked / total_sxlm_supply` (as a float, modelled exactly over
`ℚ`) when `total_sxlm_supply ≠ 0`, and the unscaled 1:1 rate `1` (not
`1·10⁷`) when `total_sxlm_supply = 0`. -/
theorem computeExchangeRate_unscaled_quotient (a s : ℤ) (hs : s ≠ 0) :
    computeExchangeRate a s = (a : ℚ) / (s : ℚ) ∧ computeExchangeRate a 0 = 1 := by
  constructor
  · rw [computeExchangeRate, if_neg hs]
  · rw [computeExchangeRate, if_pos rfl]

/-- C1, witness: the amended theorem applied at staked = 3, supply = 2. -/
theorem computeExchangeRate_unscaled_quotient_witness :
    (2 : ℤ) ≠ 0 ∧
      (computeExchangeRate 3 2 = ((3 : ℤ) : ℚ) / ((2 : ℤ) : ℚ) ∧
        computeExchangeRate 3 0 = 1) :=
  ⟨by decide, computeExchangeRate_unscaled_quotient 3 2 (by decide)⟩

/-! ### Claim C2 -/

/-- C2: after a slash of `S > 0` (with `totalStaked` the post-slash reserve
read back from chain and a positive sXLM supply), the reconciliation pass
rewrites every pending withdrawal amount to
`⌊old · totalStaked / (totalStaked + S)⌋` — i.e. `old · newER / oldER` with
`newER / oldER = totalStaked / (totalStaked + S)` — and leaves every
non-pending withdrawal unchanged. -/
theorem recalculateWithdrawalQueueAfterSlash_proportional
    (totalStaked totalSupply slashAmount : ℤ) (q : List Withdrawal)
    (hst : 0 ≤ totalStaked) (hsup : 0 < totalSupply) (hS : 0 < slashAmount) :
    recalculateWithdrawalQueueAfterSlash totalStaked totalSupply slashAmount q =
      q.map (fun w =>
        if w.status = .pending then
          { w with amount :=
              ⌊(w.amount : ℚ) * ((totalStaked : ℚ) / ((totalStaked : ℚ) + (slashAmount : ℚ)))⌋ }
        else w) := by
  have hden : (0 : ℚ) < (totalSupply : ℚ) := by exact_mod_cast hsup
  have hnum : (0 : ℚ) < ((totalStaked + slashAmount : ℤ) : ℚ) := by
    have h1 : (0 : ℚ) ≤ (totalStaked : ℚ) := by exact_mod_cast hst
    have h2 : (0 : ℚ) < (slashAmount : ℚ) := by exact_mod_cast hS
    push_cast
    linarith
  have holdER : ¬ (((totalStaked + slashAmount : ℤ) : ℚ) / (totalSupply : ℚ) ≤ 0) := by
    push_neg
    exact div_pos hnum hden
  have hfac : ((totalStaked : ℚ) / (totalSupply : ℚ)) /
      (((totalStaked + slashAmount : ℤ) : ℚ) / (totalSupply : ℚ)) =
      (totalStaked : ℚ) / ((totalStaked : ℚ) + (slashAmount : ℚ)) := by
    rw [div_div_div_cancel_right₀ hden.ne']
    push_cast
    ring_nf
  rw [recalculateWithdrawalQueueAfterSlash, if_neg hsup.ne', if_neg holdER]
  simp only [hfac]

/-- C2, witness: a slash of 10 against post-slash reserve 90 and supply 100
rescales a pending withdrawal of 100 to `⌊100 · 90/100⌋ = 90` and leaves a
completed withdrawal of 50 untouched. -/
theorem recalculateWithdrawalQueueAfterSlash_witness :
    0 ≤ (90 : ℤ) ∧ 0 < (100 : ℤ) ∧ 0 < (10 : ℤ) ∧
    recalculateWithdrawalQueueAfterSlash 90 100 10
        [⟨1, "GA", 100, .pending, 0, 0⟩, ⟨2, "GB", 50, .completed, 0, 0⟩] =
      [⟨1, "GA", 90, .pending, 0, 0⟩, ⟨2, "GB", 50, .completed, 0, 0⟩] := by
  refine ⟨by decide, by decide, by decide, ?_⟩
  rw [recalculateWithdrawalQueueAfterSlash_proportional 90 100 10 _
    (by decide) (by decide) (by decide)]
  have hfloor : (⌊((100 : ℤ) : ℚ) * (((90 : ℤ) : ℚ) / (((90 : ℤ) : ℚ) + ((10 : ℤ) : ℚ)))⌋ : ℤ)
      = 90 := by
    rw [Int.floor_eq_iff]
    constructor <;> norm_num
  simp only [List.map_cons, List.map_nil]
  norm_num [hfloor]
  decide

/-! ### Claim C3 -/

/-- C3, counterexample.  The claim bounds the round-trip loss by 2 stroops
for *every* exchange rate `r > 0`.  At `x = 9`, `r = 10` the round trip
returns 0, a loss of 9 stroops: the per-operation floor error is bounded by
one unit of the *output* token, which is worth `r` stroops, not 1. -/
theorem roundTrip_loss_counterexample :
    roundTrip 9 10 = some 0 ∧ ¬ ((9 : ℤ) - 0 ≤ 2) := by
  constructor
  · have h1 : (⌊((9 : ℤ) : ℚ) / 10⌋ : ℤ) = 0 := by
      rw [Int.floor_eq_iff]
      constructor <;> norm_num
    have h2 : (⌊((0 : ℤ) : ℚ) * 10⌋ : ℤ) = 0 := by
      rw [Int.floor_eq_iff]
      constructor <;> norm_num
    rw [roundTrip, xlmToSxlm, if_neg (by norm_num), h1, Option.some_bind, sxlmToXlm,
      if_neg (by norm_num), h2]
  · decide

/-- C3, amended.  For every `x > 0` and rate `r > 0` the round trip
`sxlmToXlm (xlmToSxlm x r) r` succeeds, never exceeds `x`, and loses
strictly less than `r + 1` stroops (one floor error per conversion, each
worth at most one unit of that conversion's output); in particular the loss
is at most 2 stroops whenever `r ≤ 1`, but for `r > 1` it can reach up to
`r` stroops. -/
theorem roundTrip_floor_loss_bound (x : ℤ) (r : ℚ) (hx : 0 < x) (hr : 0 < r) :
    ∃ y : ℤ, roundTrip x r = some y ∧ y ≤ x ∧ (x : ℚ) - y < r + 1 ∧
      (r ≤ 1 → x - y ≤ 2) := by
  have hnr : ¬ r ≤ 0 := not_le.mpr hr
  refine ⟨⌊(⌊(x : ℚ) / r⌋ : ℚ) * r⌋, ?_, ?_, ?_, ?_⟩
  · rw [roundTrip, xlmToSxlm, if_neg hnr, Option.some_bind, sxlmToXlm, if_neg hnr]
  · have h1 : (⌊(x : ℚ) / r⌋ : ℚ) ≤ (x : ℚ) / r := Int.floor_le _
    have h2 : (⌊(x : ℚ) / r⌋ : ℚ) * r ≤ ((x : ℚ) / r) * r :=
      mul_le_mul_of_nonneg_right h1 hr.le
    rw [div_mul_cancel₀ _ hr.ne'] at h2
    have h3 : (⌊(⌊(x : ℚ) / r⌋ : ℚ) * r⌋ : ℚ) ≤ (x : ℚ) :=
      le_trans (Int.floor_le _) h2
    exact_mod_cast h3
  · have h1 : (x : ℚ) / r - 1 < (⌊(x : ℚ) / r⌋ : ℚ) := Int.sub_one_lt_floor _
    have h2 : ((x : ℚ) / r - 1) * r < (⌊(x : ℚ) / r⌋ : ℚ) * r :=
      mul_lt_mul_of_pos_right h1 hr
    have h3 : ((x : ℚ) / r - 1) * r = (x : ℚ) - r := by
      field_simp
    have h4 : (⌊(x : ℚ) / r⌋ : ℚ) * r - 1 < (⌊(⌊(x : ℚ) / r⌋ : ℚ) * r⌋ : ℚ) :=
      Int.sub_one_lt_floor _
    nlinarith [h2, h3, h4]
  · intro hr1
    have h1 : (x : ℚ) / r - 1 < (⌊(x : ℚ) / r⌋ : ℚ) := Int.sub_one_lt_floor _
    have h2 : ((x : ℚ) / r - 1) * r < (⌊(x : ℚ) / r⌋ : ℚ) * r :=
      mul_lt_mul_of_pos_right h1 hr
    have h3 : ((x : ℚ) / r - 1) * r = (x : ℚ) - r := by
      field_simp
    have h4 : (⌊(x : ℚ) / r⌋ : ℚ) * r - 1 < (⌊(⌊(x : ℚ) / r⌋ : ℚ) * r⌋ : ℚ) :=
      Int.sub_one_lt_floor _
    have h5 : (x : ℚ) - (⌊(⌊(x : ℚ) / r⌋ : ℚ) * r⌋ : ℚ) < r + 1 := by nlinarith
    have h6 : (x : ℚ) - (⌊(⌊(x : ℚ) / r⌋ : ℚ) * r⌋ : ℚ) < 2 := by linarith
    have h7 : (x - ⌊(⌊(x : ℚ) / r⌋ : ℚ) * r⌋ : ℤ) < 2 := by exact_mod_cast h6
    omega

/-- C3, witness: the amended bound applied at `x = 3`, `r = 2`. -/
theorem roundTrip_floor_loss_bound_witness :
    (0 : ℤ) < 3 ∧ (0 : ℚ) < 2 ∧
      (∃ y : ℤ, roundTrip 3 2 = some y ∧ y ≤ 3 ∧ ((3 : ℤ) : ℚ) - y < 2 + 1 ∧
        ((2 : ℚ) ≤ 1 → (3 : ℤ) - y ≤ 2)) :=
  ⟨by decide, by norm_num, roundTrip_floor_loss_bound 3 2 (by decide) (by norm_num)⟩

/-! ### Claim C4 -/

/-- C4: the stake route rejects with the minimum-stake error exactly when the
requested stroop amount is strictly below `MIN_STAKE = 10,000,000`; a
deposit of exactly `MIN_STAKE` passes the bound check and a deposit of
`MIN_STAKE - 1` is rejected. -/
theorem stakeBoundCheck_min_stake (s : ℤ) :
    (s < 10000000 → stakeBoundCheck s = .belowMin) ∧
    (stakeBoundCheck s = .belowMin → s < 10000000) ∧
    stakeBoundCheck 10000000 = .ok ∧
    stakeBoundCheck (10000000 - 1) = .belowMin := by
  refine ⟨?_, ?_, by decide, by decide⟩
  · intro h
    simp only [stakeBoundCheck, minStakeAmount]
    rw [if_pos h]
  · intro h
    by_contra hge
    simp only [stakeBoundCheck, minStakeAmount, maxStakeAmount] at h
    rw [if_neg hge] at h
    by_cases hmax : s > (100000000000000 : ℤ)
    · rw [if_pos hmax] at h
      exact StakeBoundCheck.noConfusion h
    · rw [if_neg hmax] at h
      exact StakeBoundCheck.noConfusion h

/-- C4, witness: the theorem applied at `MIN_STAKE - 1 = 9,999,999`. -/
theorem stakeBoundCheck_min_stake_witness :
    (9999999 : ℤ) < 10000000 ∧ stakeBoundCheck 9999999 = .belowMin :=
  ⟨by decide, (stakeBoundCheck_min_stake 9999999).1 (by decide)⟩

/-! ### Claim C5 -/

/-- C5, counterexample.  The claim states the reported max borrow is computed
in 10⁷-scaled integer math with floor.  At collateral = 1 stroop,
exchange rate = 10⁷ and collateral factor = 7000 bps the route computes the
unfloored float `0.7` while the floored integer formula gives `0`. -/
theorem maxBorrowStroops_counterexample :
    maxBorrowStroops 1 10000000 7000 = 7 / 10 ∧
    specMaxBorrowStroops 1 10000000 7000 = 0 ∧
    maxBorrowStroops 1 10000000 7000 ≠
      ((specMaxBorrowStroops 1 10000000 7000 : ℤ) : ℚ) := by
  have h1 : maxBorrowStroops 1 10000000 7000 = 7 / 10 := by
    rw [maxBorrowStroops]
    norm_num
  have h2 : specMaxBorrowStroops 1 10000000 7000 = 0 := by
    rw [specMaxBorrowStroops]
    decide
  refine ⟨h1, h2, ?_⟩
  rw [h1, h2]
  norm_num

/-- C5, amended.  The gateway reports
`collateral · exchange_rate · collateral_factor_bps / (10000 · 10⁷)` as an
exact (float) quotient *without* flooring; its floor coincides with the
spec's 10⁷-scaled integer-math value, so the two agree exactly only when
the product is divisible by `10000 · 10⁷`. -/
theorem maxBorrowStroops_quotient_floor (c er cf : ℤ) :
    maxBorrowStroops c er cf = ((c * er * cf : ℤ) : ℚ) / ((100000000000 : ℕ) : ℚ) ∧
    ⌊maxBorrowStroops c er cf⌋ = specMaxBorrowStroops c er cf := by
  constructor
  · rw [maxBorrowStroops]
    push_cast
    norm_num
  · have h := Rat.floor_intCast_div_natCast (c * er * cf) 100000000000
    rw [maxBorrowStroops, specMaxBorrowStroops]
    push_cast at h
    norm_num at h ⊢
    convert h using 2

/-! ### Claim C6 -/

/-- C6: when the fetched user sXLM balance is strictly below the requested
unstake amount the unstake route never reaches the transaction-building
stage (and, for positive requests, returns precisely the
insufficient-balance error), and when the lending pool's free balance is
strictly below the requested borrow amount the borrow route returns the
insufficient-pool-liquidity error without building a transaction. -/
theorem gateway_preflight_blocks (amt bal bamt pool : ℤ) :
    (bal < amt → unstakePreflight amt bal ≠ .buildUnsignedTx) ∧
    (0 < amt → bal < amt → unstakePreflight amt bal = .rejectInsufficientSxlm) ∧
    (pool < bamt → borrowPreflight bamt pool = .rejectInsufficientPoolLiquidity) := by
  refine ⟨?_, ?_, ?_⟩
  · intro h
    rw [unstakePreflight]
    by_cases hnp : amt ≤ 0
    · rw [if_pos hnp]
      exact fun hh => PreflightOutcome.noConfusion hh
    · rw [if_neg hnp, if_pos h]
      exact fun hh => PreflightOutcome.noConfusion hh
  · intro hpos h
    rw [unstakePreflight, if_neg (not_le.mpr hpos), if_pos h]
  · intro h
    rw [borrowPreflight, if_pos h]

/-- C6, witness: unstaking 7 with balance 5 is rejected for insufficient
balance; borrowing 8 against a pool of 3 is rejected for insufficient pool
liquidity. -/
theorem gateway_preflight_blocks_witness :
    (5 : ℤ) < 7 ∧ unstakePreflight 7 5 = .rejectInsufficientSxlm ∧
    (3 : ℤ) < 8 ∧ borrowPreflight 8 3 = .rejectInsufficientPoolLiquidity :=
  ⟨by decide, (gateway_preflight_blocks 7 5 8 3).2.1 (by decide) (by decide),
    by decide, (gateway_preflight_blocks 7 5 8 3).2.2 (by decide)⟩

/-! ### Claim C7 -/

/-- C7: every record selected by a processing cycle of the withdrawal-queue
processor has status `pending` and an unlock time that has already passed,
and a record marked `completed` is never selected (hence never processed
again). -/
theorem readyWithdrawals_pending_and_unlocked (now : ℤ) (q : List Withdrawal)
    (w : Withdrawal) :
    (w ∈ readyWithdrawals now q → w.status = .pending ∧ w.unlockTime ≤ now) ∧
    (w.status = .completed → w ∉ readyWithdrawals now q) := by
  have key : w ∈ readyWithdrawals now q → w.status = .pending ∧ w.unlockTime ≤ now := by
    intro h
    have h2 := List.take_subset _ _ h
    rw [List.mem_mergeSort, List.mem_filter] at h2
    simpa using h2.2
  refine ⟨key, ?_⟩
  intro hc hmem
  have := (key hmem).1
  rw [this] at hc
  exact WithdrawalStatus.noConfusion hc

/-- C7, witness: a completed record sitting in the queue with its unlock time
long past is still not selected. -/
theorem readyWithdrawals_pending_and_unlocked_witness :
    (⟨1, "GA", 5, .completed, 0, 0⟩ : Withdrawal).status = .completed ∧
    (⟨1, "GA", 5, .completed, 0, 0⟩ : Withdrawal) ∉
      readyWithdrawals 100 [⟨1, "GA", 5, .completed, 0, 0⟩] :=
  ⟨rfl, (readyWithdrawals_pending_and_unlocked 100 [⟨1, "GA", 5, .completed, 0, 0⟩]
    ⟨1, "GA", 5, .completed, 0, 0⟩).2 rfl⟩

/-! ### Claim C8 -/

/-- C8: when `total_accrued_interest` decreases across `harvest_interest`
(from `pb` down to `pa`), the harvest cycle calls `add_rewards` with exactly
that decrease `pb - pa`; the TTL pass issues `bump_instance` on each of the
five contracts and nothing else; and the recalibration schedule issues
`recalibrate_rate` on the staking contract. -/
theorem keeper_cycle_behaviour :
    (∀ pb pa : ℤ, 0 ≤ pa → pa < pb → runHarvestCycle pb pa = some (pb - pa)) ∧
    (∀ c : ProtocolContract, (⟨c, "bump_instance"⟩ : AdminCall) ∈ bumpAllContractTTLs) ∧
    (∀ call ∈ bumpAllContractTTLs, call.method = "bump_instance") ∧
    recalibrateStakingRate = ⟨.staking, "recalibrate_rate"⟩ := by
  refine ⟨?_, ?_, by decide, rfl⟩
  · intro pb pa h0 hlt
    have hpb : ¬ pb ≤ 0 := by omega
    have hha : harvestedAmount pb pa = pb - pa := by
      rw [harvestedAmount, if_pos hlt]
    rw [runHarvestCycle, if_neg hpb, hha, if_neg (by omega)]
  · intro c
    cases c <;> decide

/-- C8, witness: interest drops from 10 to 3 across the harvest, and the
cycle calls `add_rewards` with 7. -/
theorem keeper_cycle_behaviour_witness :
    (0 : ℤ) ≤ 3 ∧ (3 : ℤ) < 10 ∧ runHarvestCycle 10 3 = some 7 :=
  ⟨by decide, by decide, keeper_cycle_behaviour.1 10 3 (by decide) (by decide)⟩

/-! ### Claim C9 -/

/-- C9: the two simulators are pure calculators.  `RestakingEngine.simulate`
run on any two engine instances — hence on any two database states — gives
identical results for the same arguments, and two runs of
`LeverageEngine.simulate` on the same input give identical results: the
output depends on nothing but the input arguments. -/
theorem simulators_pure_stateless :
    (∀ (e1 e2 : RestakingEngine) (principal : ℚ) (loops : ℕ) (cf sApr bApr : ℚ),
      RestakingEngine.simulate e1 principal loops cf sApr bApr =
        RestakingEngine.simulate e2 principal loops cf sApr bApr) ∧
    (∀ input : LeverageSimulationInput,
      LeverageEngine.simulate input = LeverageEngine.simulate input) :=
  ⟨fun _ _ _ _ _ _ _ => rfl, fun _ => rfl⟩

/-! ### Claim C10 -/

/-- C10: for `loops ≥ 1`, `0 < collateralFactor < 1` and a positive
principal, `LeverageEngine.simulate` returns
`totalStaked = principal · Σ_{i<loops} c^i` and
`totalBorrowed = principal · Σ_{i<loops} c^(i+1)`; its `effectiveLeverage`
is strictly increasing in the loop count and always strictly below the
returned `maxLeverage = 1 / (1 - c)`. -/
theorem leverage_simulate_closed_form (p : ℚ) (l : ℕ) (c r b : ℚ)
    (hl : 1 ≤ l) (hc0 : 0 < c) (hc1 : c < 1) (hp : 0 < p) :
    (LeverageEngine.simulate ⟨p, l, c, r, b⟩).totalStaked = p * ∑ i ∈ Finset.range l, c ^ i ∧
    (LeverageEngine.simulate ⟨p, l, c, r, b⟩).totalBorrowed =
      p * ∑ i ∈ Finset.range l, c ^ (i + 1) ∧
    (∀ l2 : ℕ, l < l2 →
      (LeverageEngine.simulate ⟨p, l, c, r, b⟩).effectiveLeverage <
        (LeverageEngine.simulate ⟨p, l2, c, r, b⟩).effectiveLeverage) ∧
    (LeverageEngine.simulate ⟨p, l, c, r, b⟩).effectiveLeverage <
      (LeverageEngine.simulate ⟨p, l, c, r, b⟩).maxLeverage := by
  have hts : ∀ m : ℕ, (LeverageEngine.simulate ⟨p, m, c, r, b⟩).totalStaked =
      p * ∑ i ∈ Finset.range m, c ^ i := by
    intro m
    show (leverageSteps c 0 0 0 p m).1 = _
    rw [leverageSteps_fst]
    ring
  have hel : ∀ m : ℕ, (LeverageEngine.simulate ⟨p, m, c, r, b⟩).effectiveLeverage =
      ∑ i ∈ Finset.range m, c ^ i := by
    intro m
    show (leverageSteps c 0 0 0 p m).1 / p = _
    rw [leverageSteps_fst]
    field_simp
  refine ⟨hts l, ?_, ?_, ?_⟩
  · show (leverageSteps c 0 0 0 p l).2.1 = _
    rw [leverageSteps_snd]
    have hsum : ∑ i ∈ Finset.range l, c ^ (i + 1) = (∑ i ∈ Finset.range l, c ^ i) * c := by
      rw [Finset.sum_mul]
      exact Finset.sum_congr rfl (fun i _ => pow_succ c i)
    rw [hsum]
    ring
  · intro l2 hl2
    rw [hel l, hel l2]
    exact geomSum_strictMono c hc0 hl2
  · rw [hel l]
    show _ < 1 / (1 - c)
    exact geomSum_lt_inv_one_sub c l hc0 hc1

/-- C10, witness: at principal 1, one loop, collateral factor 1/2, one more
loop strictly increases the effective leverage. -/
theorem leverage_simulate_closed_form_witness :
    (1 : ℕ) ≤ 1 ∧ (0 : ℚ) < 1 / 2 ∧ (1 / 2 : ℚ) < 1 ∧ (0 : ℚ) < 1 ∧
      (LeverageEngine.simulate ⟨1, 1, 1 / 2, 0, 0⟩).effectiveLeverage <
        (LeverageEngine.simulate ⟨1, 2, 1 / 2, 0, 0⟩).effectiveLeverage :=
  ⟨by decide, by norm_num, by norm_num, by norm_num,
    (leverage_simulate_closed_form 1 1 (1 / 2) 0 0 (by decide) (by norm_num) (by norm_num)
      (by norm_num)).2.2.1 2 (by decide)⟩
